import Mathlib

/-!
Verification development for the ProPrompter teleprompter application.

The source is a single-page React/TypeScript application.  We shallowly embed
the pure computational parts the specification talks about:

* `parseText` — the inline-markup parser (`text.split(/(\*\*.*?\*\*|\[.*?\])/g)`
  followed by per-part classification via `startsWith`/`endsWith`/`slice`);
* the `PromptSettings` record and its mutators (`updateSetting` call sites);
* the Teleprompter session state machine (`togglePlay`, `handleFinish`,
  the `scroll` animation-frame callback);
* the history operations (`handleDeletePrompt`, `filteredAndSortedPrompts`).

Strings are embedded as `List Char`, JavaScript numbers as `ℚ`,
`Date.now()` timestamps as `ℕ`, and `undefined`-able fields as `Option`.
-/

/-- JavaScript line terminators, which `.` in a regex does not match. -/
def isLineTerm (c : Char) : Bool :=
  c = '\n' || c = '\r' || c = '\u2028' || c = '\u2029'

/-- Scanner for the lazy regex fragment `.*?\*\*` (used after an opening `**`):
returns the shortest run of non-line-terminator characters followed by a
closing `**`, together with the remainder after the closing delimiter. -/
def findStarClose : List Char → Option (List Char × List Char)
  | [] => none
  | c :: rest =>
    if c = '*' ∧ rest.head? = some '*' then some ([], rest.tail)
    else if isLineTerm c then none
    else (findStarClose rest).map fun p => (c :: p.1, p.2)

/-- Scanner for the lazy regex fragment `.*?\]` (used after an opening `[`):
returns the shortest run of non-line-terminator characters followed by a
closing `]`, together with the remainder after the closing delimiter. -/
def findBrackClose : List Char → Option (List Char × List Char)
  | [] => none
  | c :: rest =>
    if c = ']' then some ([], rest)
    else if isLineTerm c then none
    else (findBrackClose rest).map fun p => (c :: p.1, p.2)

/-- One attempt of the regex `(\*\*.*?\*\*|\[.*?\])` anchored at the start of
`s`, trying the alternatives in order; on success returns the matched token
and the remainder of the input. -/
def matchAt (s : List Char) : Option (List Char × List Char) :=
  if s.take 2 = ['*', '*'] then
    match findStarClose (s.drop 2) with
    | some (con, r) => some ('*' :: '*' :: (con ++ ['*', '*']), r)
    | none => none
  else if s.take 1 = ['['] then
    match findBrackClose (s.drop 1) with
    | some (con, r) => some ('[' :: (con ++ [']']), r)
    | none => none
  else none

/-- `String.prototype.split` with the capturing separator regex
`(\*\*.*?\*\*|\[.*?\])`: leftmost match wins, the captured separators are
spliced into the result, and empty between-separator parts are kept.
The `fuel` argument makes the recursion structural; `splitText` supplies
enough fuel that the fallback branch is never taken. -/
def splitAux : Nat → List Char → List Char → List (List Char)
  | _, [], acc => [acc.reverse]
  | 0, c :: rest, acc => [acc.reverse ++ (c :: rest)]
  | fuel + 1, c :: rest, acc =>
    match matchAt (c :: rest) with
    | some (tok, r) => acc.reverse :: tok :: splitAux fuel r []
    | none => splitAux fuel rest (c :: acc)

/-- `text.split(/(\*\*.*?\*\*|\[.*?\])/g)` from `parseText`. -/
def splitText (text : List Char) : List (List Char) :=
  splitAux text.length text []

/-- The three kinds of rendered spans `parseText` produces: a `<strong>`
highlight, a bookmark `<span>`, and a plain `<span>`.  Each carries the
text content left after stripping the delimiters. -/
inductive Span
  | plain (s : List Char)
  | emphasis (s : List Char)
  | bookmark (s : List Char)
deriving DecidableEq, Repr

/-- `String.prototype.slice(a, -b)` for natural `a`, `b`: drop `a` characters
from the front and `b` from the back, empty when the indices cross. -/
def jsSlice (a b : Nat) (l : List Char) : List Char :=
  (l.take (l.length - b)).drop a

/-- The per-part classification inside `parseText`'s `parts.map`: a part that
starts and ends with `**` becomes an emphasis span with `part.slice(2, -2)`,
else a part that starts with `[` and ends with `]` becomes a bookmark span
with `part.slice(1, -1)`, else the part is rendered as a plain span. -/
def classify (part : List Char) : Span :=
  if "**".data <+: part ∧ "**".data <:+ part then Span.emphasis (jsSlice 2 2 part)
  else if "[".data <+: part ∧ "]".data <:+ part then Span.bookmark (jsSlice 1 1 part)
  else Span.plain part

/-- `parseText`: split the text on the markup regex and classify every part. -/
def parseText (text : List Char) : List Span :=
  (splitText text).map classify

/-- The raw text of a span with the stripped delimiter characters re-added:
`**` around an emphasis span and `[`/`]` around a bookmark span. -/
def spanRaw : Span → List Char
  | .plain s => s
  | .emphasis s => '*' :: '*' :: (s ++ ['*', '*'])
  | .bookmark s => '[' :: (s ++ [']'])

/-- Concatenation of the spans' raw text (delimiters re-added). -/
def rejoinRaw (spans : List Span) : List Char :=
  (spans.map spanRaw).flatten

/-! ## Data model (`types.ts`) -/

inductive FontStyle
  | fontInter | fontLora | fontRobotoMono
deriving DecidableEq, Repr

/-- The TS `Alignment` type (named `ScriptAlignment` here: Mathlib already
has an `Alignment`). -/
inductive ScriptAlignment
  | left | center | right
deriving DecidableEq, Repr

inductive Mode
  | day | night
deriving DecidableEq, Repr

inductive Direction
  | ltr | rtl
deriving DecidableEq, Repr

/-- `PromptSettings` from `types.ts`; the JavaScript numbers `speed` and
`fontSize` are embedded as rationals. -/
structure PromptSettings where
  speed : ℚ
  fontSize : ℚ
  fontStyle : FontStyle
  alignment : ScriptAlignment
  mode : Mode
  direction : Direction
deriving DecidableEq, Repr

/-- `DEFAULT_SETTINGS` from the source. -/
def DEFAULT_SETTINGS : PromptSettings :=
  { speed := 2, fontSize := 6, fontStyle := .fontInter, alignment := .center,
    mode := .night, direction := .ltr }

/-- `Prompt` from `types.ts`: the `id` string, title, body text, owned
settings, optional session timestamps and the creation timestamp. -/
structure Prompt where
  id : List Char
  title : List Char
  text : List Char
  settings : PromptSettings
  startTime : Option ℕ := none
  endTime : Option ℕ := none
  createdAt : ℕ
deriving DecidableEq, Repr

/-! ## Settings mutators (`updateSetting` and its call sites) -/

/-- `updateSetting('speed', v)`: copy-on-write replacement of the nested
`speed` field; `updateSetting` itself performs no clamping. -/
def updateSpeed (s : PromptSettings) (v : ℚ) : PromptSettings :=
  { s with speed := v }

/-- `updateSetting('fontSize', v)`: copy-on-write replacement of the nested
`fontSize` field; `updateSetting` itself performs no clamping. -/
def updateFontSize (s : PromptSettings) (v : ℚ) : PromptSettings :=
  { s with fontSize := v }

/-- The speed `+` button / ArrowUp key:
`updateSetting('speed', Math.min(10, speed + 0.5))`. -/
def speedStepUp (s : PromptSettings) : PromptSettings :=
  updateSpeed s (min 10 (s.speed + 1/2))

/-- The speed `-` button / ArrowDown key:
`updateSetting('speed', Math.max(0, speed - 0.5))`. -/
def speedStepDown (s : PromptSettings) : PromptSettings :=
  updateSpeed s (max 0 (s.speed - 1/2))

/-- The speed range slider's `onChange`:
`updateSetting('speed', parseFloat(e.target.value))` — the parsed value is
stored as-is, with no clamping in the handler. -/
def speedSliderSet (s : PromptSettings) (v : ℚ) : PromptSettings :=
  updateSpeed s v

/-- The font-size `+` button / ArrowRight key:
`updateSetting('fontSize', Math.min(20, fontSize + 0.5))`. -/
def fontSizeStepUp (s : PromptSettings) : PromptSettings :=
  updateFontSize s (min 20 (s.fontSize + 1/2))

/-- The font-size `-` button / ArrowLeft key:
`updateSetting('fontSize', Math.max(1, fontSize - 0.5))`. -/
def fontSizeStepDown (s : PromptSettings) : PromptSettings :=
  updateFontSize s (max 1 (s.fontSize - 1/2))

/-- The font-size range slider's `onChange`:
`updateSetting('fontSize', parseFloat(e.target.value))` — stored unclamped. -/
def fontSizeSliderSet (s : PromptSettings) (v : ℚ) : PromptSettings :=
  updateFontSize s v

/-! ## Teleprompter session state machine (`TeleprompterView`) -/

/-- The `useState` pieces of `TeleprompterView` that the session claims are
about: the active prompt, the playing flag, the scroll offset and the
session-start timestamp (`undefined` until recorded). -/
structure TeleprompterState where
  prompt : Prompt
  isPlaying : Bool
  scrollPos : ℚ
  startTime : Option ℕ
deriving DecidableEq, Repr

/-- The initial state of a Teleprompter session:
`useState(false)`, `useState(0)`, `useState(undefined)`. -/
def initialTeleState (p : Prompt) : TeleprompterState :=
  { prompt := p, isPlaying := false, scrollPos := 0, startTime := none }

/-- JavaScript truthiness of the `startTime : number | undefined` state:
`undefined` and `0` are falsy, every other number is truthy. -/
def jsTruthyTime : Option ℕ → Bool
  | none => false
  | some t => t ≠ 0

/-- `togglePlay`: flip `isPlaying`; then `if (!startTime) setStartTime(Date.now())`
— the timestamp is (re)recorded whenever the current one is falsy. -/
def togglePlay (st : TeleprompterState) (now : ℕ) : TeleprompterState :=
  { st with
    isPlaying := !st.isPlaying,
    startTime := if jsTruthyTime st.startTime then st.startTime else some now }

/-- `handleFinish`: stop playback and emit
`{ ...prompt, startTime, endTime: Date.now() }`. -/
def handleFinish (st : TeleprompterState) (now : ℕ) :
    TeleprompterState × Prompt :=
  ({ st with isPlaying := false },
   { st.prompt with startTime := st.startTime, endTime := some now })

/-- The `scroll` animation-frame callback, given the measured content length
(`contentRef.current.offsetHeight`): while the offset is below the content
length it advances by `speed / 10`, otherwise it sets `isPlaying` to false. -/
def scrollTick (st : TeleprompterState) (contentHeight : ℚ) : TeleprompterState :=
  if st.scrollPos < contentHeight then
    { st with scrollPos := st.scrollPos + st.prompt.settings.speed / 10 }
  else
    { st with isPlaying := false }

/-- A concrete prompt used for counterexamples and witnesses. -/
def samplePrompt : Prompt :=
  { id := "1".data, title := "Untitled Prompt".data, text := "hi".data,
    settings := DEFAULT_SETTINGS, createdAt := 1 }

/-! ## History operations (`HistoryView`, `App`) -/

/-- `handleDeletePrompt` (the list mutation after the user confirms the
dialog): `prev.filter(p => p.id !== id)`. -/
def handleDeletePrompt (prompts : List Prompt) (id : List Char) : List Prompt :=
  prompts.filter fun p => p.id ≠ id

/-- `String.prototype.toLowerCase` (ASCII-faithful embedding). -/
def jsToLower (s : List Char) : List Char :=
  s.map Char.toLower

/-- `hay.includes(needle)`: `needle` occurs as a contiguous substring. -/
def strIncludes (hay needle : List Char) : Bool :=
  match hay with
  | [] => needle.isEmpty
  | c :: t => needle.isPrefixOf (c :: t) || strIncludes t needle

/-- The filter predicate of `filteredAndSortedPrompts`:
`p.title.toLowerCase().includes(searchTerm.toLowerCase()) ||
 p.text.toLowerCase().includes(searchTerm.toLowerCase())`. -/
def matchesSearch (searchTerm : List Char) (p : Prompt) : Bool :=
  strIncludes (jsToLower p.title) (jsToLower searchTerm) ||
  strIncludes (jsToLower p.text) (jsToLower searchTerm)

/-- The `sortKey` state of `HistoryView`: `'createdAt' | 'title'`. -/
inductive SortKey
  | createdAt | title
deriving DecidableEq, Repr

/-- The `sortOrder` state of `HistoryView`: `'asc' | 'desc'`. -/
inductive SortOrder
  | asc | desc
deriving DecidableEq, Repr

/-- JavaScript `<` on strings: lexicographic comparison of the character
code units, a proper prefix comparing smaller. -/
def strLt : List Char → List Char → Bool
  | [], [] => false
  | [], _ :: _ => true
  | _ :: _, [] => false
  | a :: as, b :: bs =>
    if a < b then true
    else if b < a then false
    else strLt as bs

/-- The sort comparator of `filteredAndSortedPrompts`: compare the chosen
key with `>` / `<` giving `1`, `-1` or `0`, then negate for descending
order. -/
def promptCmp (sortKey : SortKey) (sortOrder : SortOrder) (a b : Prompt) : Int :=
  let comparison : Int :=
    match sortKey with
    | .createdAt =>
      if a.createdAt > b.createdAt then 1
      else if a.createdAt < b.createdAt then -1
      else 0
    | .title =>
      if strLt b.title a.title then 1
      else if strLt a.title b.title then -1
      else 0
  match sortOrder with
  | .desc => -comparison
  | .asc => comparison

/-- The sort relation induced by the comparator: `a` may precede `b` when
the comparator does not order it strictly after `b`. -/
def promptLe (sortKey : SortKey) (sortOrder : SortOrder) (a b : Prompt) : Prop :=
  promptCmp sortKey sortOrder a b ≤ 0

instance (sortKey : SortKey) (sortOrder : SortOrder) :
    DecidableRel (promptLe sortKey sortOrder) :=
  fun a b => inferInstanceAs (Decidable (promptCmp sortKey sortOrder a b ≤ 0))

/-- `filteredAndSortedPrompts`: filter by the case-insensitive search, then
sort by the comparator.  ECMAScript `Array.prototype.sort` is a stable,
comparator-consistent sort of a fresh array (`filter` copies), which we
embed as a stable sort with respect to `promptLe`. -/
def filteredAndSortedPrompts (prompts : List Prompt) (searchTerm : List Char)
    (sortKey : SortKey) (sortOrder : SortOrder) : List Prompt :=
  List.insertionSort (promptLe sortKey sortOrder)
    (prompts.filter (matchesSearch searchTerm))

/-- Concrete history records for counterexamples and witnesses. -/
def promptA : Prompt :=
  { id := "1".data, title := "Alpha".data, text := "first script".data,
    settings := DEFAULT_SETTINGS, createdAt := 100 }

def promptB : Prompt :=
  { id := "2".data, title := "Beta".data, text := "second script".data,
    settings := DEFAULT_SETTINGS, createdAt := 200 }

def promptC : Prompt :=
  { id := "3".data, title := "Gamma".data, text := "third script".data,
    settings := DEFAULT_SETTINGS, createdAt := 300 }

/-- Two distinct records sharing one id (ids come from
`Date.now().toString()`, so two records created in the same millisecond
collide). -/
def dupA : Prompt :=
  { id := "7".data, title := "First".data, text := "one".data,
    settings := DEFAULT_SETTINGS, createdAt := 7 }

def dupB : Prompt :=
  { id := "7".data, title := "Second".data, text := "two".data,
    settings := DEFAULT_SETTINGS, createdAt := 8 }

/-- A record whose body (but not title) contains the search string. -/
def promptBodyMatch : Prompt :=
  { id := "6".data, title := "Notes".data, text := "the BETA value".data,
    settings := DEFAULT_SETTINGS, createdAt := 400 }

/-- A record tied with `promptA` on `createdAt`. -/
def promptA2 : Prompt :=
  { id := "5".data, title := "Delta".data, text := "fourth script".data,
    settings := DEFAULT_SETTINGS, createdAt := 100 }

theorem findStarClose_eq : ∀ {l con r : List Char},
    findStarClose l = some (con, r) → l = con ++ '*' :: '*' :: r := by
  intro l
  induction l with
  | nil => intro con r h; simp [findStarClose] at h
  | cons c rest ih =>
    intro con r h
    unfold findStarClose at h
    split at h
    next hc =>
      obtain ⟨hc1, hc2⟩ := hc
      simp at h
      obtain ⟨h1, h2⟩ := h
      subst h1; subst h2
      subst hc1
      cases rest with
      | nil => simp at hc2
      | cons a t =>
        simp at hc2
        subst hc2
        simp
    next hc =>
      split at h
      next => simp at h
      next =>
        cases hfc : findStarClose rest with
        | none => rw [hfc] at h; simp at h
        | some p =>
          obtain ⟨con', r'⟩ := p
          rw [hfc] at h
          simp at h
          obtain ⟨h1, h2⟩ := h
          subst h1; subst h2
          simp [ih hfc]

theorem findBrackClose_eq : ∀ {l con r : List Char},
    findBrackClose l = some (con, r) → l = con ++ ']' :: r := by
  intro l
  induction l with
  | nil => intro con r h; simp [findBrackClose] at h
  | cons c rest ih =>
    intro con r h
    unfold findBrackClose at h
    split at h
    next hc =>
      subst hc
      simp at h
      obtain ⟨h1, h2⟩ := h
      subst h1; subst h2
      simp
    next hc =>
      split at h
      next => simp at h
      next =>
        cases hfc : findBrackClose rest with
        | none => rw [hfc] at h; simp at h
        | some p =>
          obtain ⟨con', r'⟩ := p
          rw [hfc] at h
          simp at h
          obtain ⟨h1, h2⟩ := h
          subst h1; subst h2
          simp [ih hfc]

theorem matchAt_eq {s tok r : List Char} (h : matchAt s = some (tok, r)) :
    s = tok ++ r := by
  unfold matchAt at h
  split at h
  next hst =>
    cases hfc : findStarClose (s.drop 2) with
    | none => rw [hfc] at h; simp at h
    | some p =>
      obtain ⟨con, rr⟩ := p
      rw [hfc] at h
      simp at h
      obtain ⟨h1, h2⟩ := h
      subst h1; subst h2
      have hd := findStarClose_eq hfc
      calc s = s.take 2 ++ s.drop 2 := (List.take_append_drop 2 s).symm
        _ = _ := by rw [hst, hd]; simp
  next hst =>
    split at h
    next hbr =>
      cases hfc : findBrackClose (s.drop 1) with
      | none => rw [hfc] at h; simp at h
      | some p =>
        obtain ⟨con, rr⟩ := p
        rw [hfc] at h
        simp at h
        obtain ⟨h1, h2⟩ := h
        subst h1; subst h2
        have hd := findBrackClose_eq hfc
        calc s = s.take 1 ++ s.drop 1 := (List.take_append_drop 1 s).symm
          _ = _ := by rw [hbr, hd]; simp
    next => simp at h

theorem splitAux_flatten : ∀ (fuel : Nat) (s acc : List Char),
    (splitAux fuel s acc).flatten = acc.reverse ++ s := by
  intro fuel
  induction fuel with
  | zero => intro s acc; cases s <;> simp [splitAux]
  | succ n ih =>
    intro s acc
    cases s with
    | nil => simp [splitAux]
    | cons c rest =>
      rw [splitAux]
      cases hm : matchAt (c :: rest) with
      | some p =>
        obtain ⟨tok, r⟩ := p
        simp only [List.flatten, ih r [], List.reverse_nil, List.nil_append]
        rw [← matchAt_eq hm]
      | none =>
        simp only [ih rest (c :: acc)]
        simp

/-- Concatenating the parts produced by the split reproduces the input:
the capturing split is non-destructive. -/
theorem splitText_flatten (text : List Char) : (splitText text).flatten = text :=
  splitAux_flatten text.length text []

/-- A list with a known front part and back part decomposes around its
`jsSlice`, provided the two parts do not overlap. -/
theorem eq_append_jsSlice {p front back : List Char} (h1 : front <+: p)
    (h2 : back <:+ p) (h3 : front.length + back.length ≤ p.length) :
    p = front ++ (jsSlice front.length back.length p ++ back) := by
  obtain ⟨u, hu⟩ := h2
  have hun : u.length = p.length - back.length := by
    subst hu; simp
  have htake : p.take (p.length - back.length) = u := by
    rw [← hun, ← hu]
    exact List.take_left u back
  have hpt : p.take front.length = front := (List.prefix_iff_eq_take.mp h1).symm
  have hua : u.take front.length = front := by
    rw [← htake, List.take_take, min_eq_left (by omega)]
    exact hpt
  have hslice : jsSlice front.length back.length p = u.drop front.length := by
    unfold jsSlice
    rw [htake]
  calc p = u ++ back := hu.symm
    _ = (u.take front.length ++ u.drop front.length) ++ back := by
        rw [List.take_append_drop]
    _ = front ++ (u.drop front.length ++ back) := by rw [hua, List.append_assoc]
    _ = front ++ (jsSlice front.length back.length p ++ back) := by rw [hslice]

/-- Re-adding the stripped delimiters to a classified part gives back the
part itself — except for the two residual parts `**` and `***`, whose
`**` prefix and suffix overlap, so that `slice(2, -2)` yields the empty
string and the re-added delimiters gain characters. -/
theorem spanRaw_classify {part : List Char} (h2 : part ≠ "**".data)
    (h3 : part ≠ "***".data) : spanRaw (classify part) = part := by
  unfold classify
  split
  next h =>
    obtain ⟨hfr, hbk⟩ := h
    have hl2 : 2 ≤ part.length := by
      have := hfr.length_le
      simpa using this
    rcases Nat.lt_or_ge part.length 4 with hlt | hge
    · exfalso
      interval_cases hn : part.length
      · exact h2 (hfr.eq_of_length (by simp [hn])).symm
      · obtain ⟨t, ht⟩ := hfr
        obtain ⟨u, hu⟩ := hbk
        have htl : t.length = 1 := by
          have := congrArg List.length ht
          simp [hn] at this
          omega
        have hul : u.length = 1 := by
          have := congrArg List.length hu
          simp [hn] at this
          omega
        obtain ⟨a, rfl⟩ := List.length_eq_one.mp htl
        obtain ⟨b, rfl⟩ := List.length_eq_one.mp hul
        rw [← ht] at hu
        simp at hu
        obtain ⟨hb, ha⟩ := hu
        exact h3 (ht.symm.trans (by rw [← ha]; rfl))
    · have hd := eq_append_jsSlice hfr hbk (by simpa using hge)
      simp only [spanRaw]
      exact hd.symm
  next h =>
    clear h
    split
    next h =>
      obtain ⟨hfr, hbk⟩ := h
      have hl2 : 2 ≤ part.length := by
        obtain ⟨u, hu⟩ := hbk
        rcases u with _ | ⟨c, u⟩
        · exfalso
          obtain ⟨t, ht⟩ := hfr
          rw [← hu] at ht
          simp at ht
        · have := congrArg List.length hu
          simp at this
          omega
      have hd := eq_append_jsSlice hfr hbk (by simpa using hl2)
      simp only [spanRaw]
      exact hd.symm
    next => rfl

/-- **C1** (amended): for every input text in which the split leaves no
residual `**` or `***` part, concatenating the raw text of the parsed spans
with the stripped delimiters re-added reproduces the input exactly. -/
theorem parseText_roundtrip (text : List Char)
    (h : ∀ part ∈ splitText text, part ≠ "**".data ∧ part ≠ "***".data) :
    rejoinRaw (parseText text) = text := by
  unfold rejoinRaw parseText
  rw [List.map_map]
  have hmap : (splitText text).map (spanRaw ∘ classify) = (splitText text).map id :=
    List.map_congr_left fun part hp =>
      spanRaw_classify (h part hp).1 (h part hp).2
  rw [hmap, List.map_id]
  exact splitText_flatten text

/-- Witness for `parseText_roundtrip` at a concrete markup-bearing input. -/
theorem parseText_roundtrip_witness :
    (∀ part ∈ splitText "Hello **world** [intro] end".data,
        part ≠ "**".data ∧ part ≠ "***".data) ∧
    rejoinRaw (parseText "Hello **world** [intro] end".data) =
      "Hello **world** [intro] end".data :=
  ⟨by decide, parseText_roundtrip _ (by decide)⟩

/-- **C1** (counterexample): on the input `**` the parser classifies the
whole (unmatched) part as an emphasis span with empty content, so re-adding
the delimiters yields `****`, not the original input. -/
theorem parseText_roundtrip_cex :
    rejoinRaw (parseText "**".data) ≠ "**".data := by decide

/-- **C9**: parsing `Hello **world** [intro] end` produces exactly
plain `Hello `, emphasis `world`, plain ` `, bookmark `intro`,
plain ` end`, with the delimiters stripped. -/
theorem parseText_example :
    parseText "Hello **world** [intro] end".data =
      [Span.plain "Hello ".data, Span.emphasis "world".data, Span.plain " ".data,
       Span.bookmark "intro".data, Span.plain " end".data] := by decide

/-- **C10**: the parser emits empty plain spans at delimiter boundaries:
the empty input gives one empty plain span, and inputs beginning with,
ending with, or juxtaposing markup tokens keep the empty plain parts
before, after, and between the markup spans. -/
theorem parseText_empty_plain_spans :
    parseText [] = [Span.plain []] ∧
    parseText "**a**".data = [Span.plain [], Span.emphasis ['a'], Span.plain []] ∧
    parseText "**a**[b]".data =
      [Span.plain [], Span.emphasis ['a'], Span.plain [], Span.bookmark ['b'],
       Span.plain []] := by decide

/-- **C2** (counterexample): the slider `onChange` handlers store the parsed
value without clamping, so a direct set of an out-of-range value is stored
out of range: setting speed to 11 stores 11 > 10, and setting fontSize to 21
stores 21 > 20. -/
theorem settings_clamp_cex :
    (speedSliderSet DEFAULT_SETTINGS 11).speed = 11 ∧
    ¬ (speedSliderSet DEFAULT_SETTINGS 11).speed ≤ 10 ∧
    (fontSizeSliderSet DEFAULT_SETTINGS 21).fontSize = 21 ∧
    ¬ (fontSizeSliderSet DEFAULT_SETTINGS 21).fontSize ≤ 20 :=
  ⟨rfl, by decide, rfl, by decide⟩

/-- **C2** (amended): every step mutator (the `±0.5` buttons and arrow keys)
clamps, so from an in-range settings record each of them yields a speed in
`[0, 10]` and a fontSize in `[1, 20]`; the direct slider set, however,
stores its argument unclamped. -/
theorem settings_step_clamped (s : PromptSettings)
    (hs0 : 0 ≤ s.speed) (hs1 : s.speed ≤ 10)
    (hf0 : 1 ≤ s.fontSize) (hf1 : s.fontSize ≤ 20) :
    (0 ≤ (speedStepUp s).speed ∧ (speedStepUp s).speed ≤ 10) ∧
    (0 ≤ (speedStepDown s).speed ∧ (speedStepDown s).speed ≤ 10) ∧
    (1 ≤ (fontSizeStepUp s).fontSize ∧ (fontSizeStepUp s).fontSize ≤ 20) ∧
    (1 ≤ (fontSizeStepDown s).fontSize ∧ (fontSizeStepDown s).fontSize ≤ 20) ∧
    (∀ v : ℚ, (speedSliderSet s v).speed = v) ∧
    (∀ v : ℚ, (fontSizeSliderSet s v).fontSize = v) := by
  simp only [speedStepUp, speedStepDown, fontSizeStepUp, fontSizeStepDown,
    speedSliderSet, fontSizeSliderSet, updateSpeed, updateFontSize]
  refine ⟨⟨?_, min_le_left _ _⟩, ⟨le_max_left _ _, ?_⟩, ⟨?_, min_le_left _ _⟩,
    ⟨le_max_left _ _, ?_⟩, fun v => trivial, fun v => trivial⟩
  · exact le_min (by norm_num) (by linarith)
  · exact max_le (by norm_num) (by linarith)
  · exact le_min (by norm_num) (by linarith)
  · exact max_le (by norm_num) (by linarith)

/-- Witness for `settings_step_clamped` at the default settings. -/
theorem settings_step_clamped_witness :
    (0 ≤ DEFAULT_SETTINGS.speed ∧ DEFAULT_SETTINGS.speed ≤ 10 ∧
     1 ≤ DEFAULT_SETTINGS.fontSize ∧ DEFAULT_SETTINGS.fontSize ≤ 20) ∧
    ((0 ≤ (speedStepUp DEFAULT_SETTINGS).speed ∧
        (speedStepUp DEFAULT_SETTINGS).speed ≤ 10) ∧
     (0 ≤ (speedStepDown DEFAULT_SETTINGS).speed ∧
        (speedStepDown DEFAULT_SETTINGS).speed ≤ 10) ∧
     (1 ≤ (fontSizeStepUp DEFAULT_SETTINGS).fontSize ∧
        (fontSizeStepUp DEFAULT_SETTINGS).fontSize ≤ 20) ∧
     (1 ≤ (fontSizeStepDown DEFAULT_SETTINGS).fontSize ∧
        (fontSizeStepDown DEFAULT_SETTINGS).fontSize ≤ 20) ∧
     (∀ v : ℚ, (speedSliderSet DEFAULT_SETTINGS v).speed = v) ∧
     (∀ v : ℚ, (fontSizeSliderSet DEFAULT_SETTINGS v).fontSize = v)) :=
  ⟨⟨by decide, by decide, by decide, by decide⟩,
   settings_step_clamped DEFAULT_SETTINGS (by decide) (by decide) (by decide)
     (by decide)⟩

/-- **C3** (counterexample): when the first play happens at `Date.now() = 0`,
the recorded session-start timestamp `0` is falsy, so the next toggle (the
pause) re-records the timestamp: the pause/resume cycle does not leave the
first-play timestamp unchanged. -/
theorem togglePlay_first_set_cex :
    (togglePlay (initialTeleState samplePrompt) 0).startTime = some 0 ∧
    (togglePlay (togglePlay (togglePlay (initialTeleState samplePrompt) 0) 5) 9).startTime
      = some 5 := by decide

/-- **C3** (amended): provided the first play happens at a nonzero timestamp
(the handler tests JavaScript truthiness of `startTime`, so a recorded `0`
counts as unset), the first play records the timestamp and any later
pause/resume cycle leaves it unchanged. -/
theorem togglePlay_first_set (p : Prompt) (t0 t1 t2 : ℕ) (h : t0 ≠ 0) :
    (togglePlay (initialTeleState p) t0).startTime = some t0 ∧
    (togglePlay (togglePlay (initialTeleState p) t0) t1).startTime = some t0 ∧
    (togglePlay (togglePlay (togglePlay (initialTeleState p) t0) t1) t2).startTime
      = some t0 := by
  simp [togglePlay, initialTeleState, jsTruthyTime, h]

/-- Witness for `togglePlay_first_set`: play at 3, pause at 5, play at 9. -/
theorem togglePlay_first_set_witness :
    (3 ≠ 0) ∧
    ((togglePlay (initialTeleState samplePrompt) 3).startTime = some 3 ∧
     (togglePlay (togglePlay (initialTeleState samplePrompt) 3) 5).startTime = some 3 ∧
     (togglePlay (togglePlay (togglePlay (initialTeleState samplePrompt) 3) 5) 9).startTime
       = some 3) :=
  ⟨by decide, togglePlay_first_set samplePrompt 3 5 9 (by decide)⟩

/-- **C4**: finishing a session in which no play action ever occurred emits a
record whose session-start timestamp is `undefined` and whose session-end
timestamp is the finish time. -/
theorem handleFinish_without_play (p : Prompt) (now : ℕ) :
    (handleFinish (initialTeleState p) now).2.startTime = none ∧
    (handleFinish (initialTeleState p) now).2.endTime = some now :=
  ⟨rfl, rfl⟩

/-- **C5** (counterexample): at speed 0 (an allowed value of `[0, 10]`) a tick
below the content length advances the offset by `0 / 10 = 0`, so the offset
does not strictly increase and the content is never reached. -/
theorem scrollTick_cex :
    ((scrollTick
        { prompt := { samplePrompt with
            settings := updateSpeed DEFAULT_SETTINGS 0 },
          isPlaying := true, scrollPos := 0, startTime := some 3 } 100).scrollPos = 0) ∧
    ¬ (0 : ℚ) <
        (scrollTick
          { prompt := { samplePrompt with
              settings := updateSpeed DEFAULT_SETTINGS 0 },
            isPlaying := true, scrollPos := 0, startTime := some 3 } 100).scrollPos := by
  have h : (scrollTick
      { prompt := { samplePrompt with settings := updateSpeed DEFAULT_SETTINGS 0 },
        isPlaying := true, scrollPos := 0, startTime := some 3 } 100).scrollPos = 0 := by
    simp [scrollTick, updateSpeed, samplePrompt]
  exact ⟨h, by rw [h]; exact lt_irrefl 0⟩

/-- **C5** (amended): while the offset is below the measured content length a
tick advances it by exactly `speed / 10` and keeps the machine running — a
strict increase whenever `speed > 0` (at speed 0 the offset stays put); once
the offset has reached or passed the content length, a tick stops the
machine and leaves the offset unchanged. -/
theorem scrollTick_spec (st : TeleprompterState) (contentHeight : ℚ) :
    (st.scrollPos < contentHeight →
      (scrollTick st contentHeight).scrollPos
          = st.scrollPos + st.prompt.settings.speed / 10 ∧
      (scrollTick st contentHeight).isPlaying = st.isPlaying ∧
      (0 < st.prompt.settings.speed →
        st.scrollPos < (scrollTick st contentHeight).scrollPos)) ∧
    (contentHeight ≤ st.scrollPos →
      (scrollTick st contentHeight).isPlaying = false ∧
      (scrollTick st contentHeight).scrollPos = st.scrollPos) := by
  constructor
  · intro hlt
    rw [scrollTick, if_pos hlt]
    refine ⟨rfl, rfl, fun hs => ?_⟩
    have : 0 < st.prompt.settings.speed / 10 := by positivity
    simp only
    linarith
  · intro hge
    rw [scrollTick, if_neg (not_lt.mpr hge)]
    exact ⟨rfl, rfl⟩

/-- Witness for `scrollTick_spec`: a running state below the content length,
and one past it. -/
theorem scrollTick_spec_witness :
    (((initialTeleState samplePrompt).scrollPos < 100 →
      (scrollTick (initialTeleState samplePrompt) 100).scrollPos
          = (initialTeleState samplePrompt).scrollPos
            + (initialTeleState samplePrompt).prompt.settings.speed / 10 ∧
      (scrollTick (initialTeleState samplePrompt) 100).isPlaying
          = (initialTeleState samplePrompt).isPlaying ∧
      (0 < (initialTeleState samplePrompt).prompt.settings.speed →
        (initialTeleState samplePrompt).scrollPos
          < (scrollTick (initialTeleState samplePrompt) 100).scrollPos)) ∧
     (100 ≤ (initialTeleState samplePrompt).scrollPos →
      (scrollTick (initialTeleState samplePrompt) 100).isPlaying = false ∧
      (scrollTick (initialTeleState samplePrompt) 100).scrollPos
          = (initialTeleState samplePrompt).scrollPos)) ∧
    (initialTeleState samplePrompt).scrollPos < 100 ∧
    0 < (initialTeleState samplePrompt).prompt.settings.speed :=
  ⟨scrollTick_spec (initialTeleState samplePrompt) 100, by decide, by decide⟩

theorem strLt_irrefl : ∀ a : List Char, strLt a a = false := by
  intro a
  induction a with
  | nil => rfl
  | cons c t ih => simp [strLt, ih]

theorem strLt_asymm : ∀ {a b : List Char}, strLt a b = true → strLt b a = false := by
  intro a
  induction a with
  | nil =>
    intro b h
    cases b with
    | nil => simp [strLt] at h
    | cons d u => rfl
  | cons c t ih =>
    intro b h
    cases b with
    | nil => simp [strLt] at h
    | cons d u =>
      rcases lt_trichotomy c d with h1 | h1 | h1
      · simp [strLt, h1, asymm h1, lt_asymm h1]
      · subst h1
        simp [strLt, lt_irrefl] at h ⊢
        exact ih h
      · simp [strLt, h1, lt_asymm h1] at h

theorem strLt_trans : ∀ {a b c : List Char},
    strLt a b = true → strLt b c = true → strLt a c = true := by
  intro a
  induction a with
  | nil =>
    intro b c h1 h2
    cases b with
    | nil => simp [strLt] at h1
    | cons d u =>
      cases c with
      | nil => simp [strLt] at h2
      | cons e v => rfl
  | cons x xs ih =>
    intro b c h1 h2
    cases b with
    | nil => simp [strLt] at h1
    | cons y ys =>
      cases c with
      | nil => simp [strLt] at h2
      | cons z zs =>
        rcases lt_trichotomy x y with hxy | hxy | hxy
        · rcases lt_trichotomy y z with hyz | hyz | hyz
          · simp [strLt, lt_trans hxy hyz]
          · subst hyz
            simp [strLt, hxy]
          · simp [strLt, hyz, lt_asymm hyz] at h2
        · subst hxy
          rcases lt_trichotomy x z with hxz | hxz | hxz
          · simp [strLt, hxz]
          · subst hxz
            simp [strLt, lt_irrefl] at h1 h2 ⊢
            exact ih h1 h2
          · simp [strLt, hxz, lt_asymm hxz] at h2
        · simp [strLt, hxy, lt_asymm hxy] at h1

theorem strLt_trichot : ∀ a b : List Char,
    strLt a b = true ∨ strLt b a = true ∨ a = b := by
  intro a
  induction a with
  | nil =>
    intro b
    cases b with
    | nil => right; right; rfl
    | cons d u => left; rfl
  | cons c t ih =>
    intro b
    cases b with
    | nil => right; left; rfl
    | cons d u =>
      rcases lt_trichotomy c d with h1 | h1 | h1
      · left; simp [strLt, h1]
      · subst h1
        rcases ih u with h2 | h2 | h2
        · left; simp [strLt, lt_irrefl, h2]
        · right; left; simp [strLt, lt_irrefl, h2]
        · right; right; rw [h2]
      · right; left; simp [strLt, h1]

theorem promptLe_createdAt_asc {a b : Prompt} :
    promptLe .createdAt .asc a b ↔ a.createdAt ≤ b.createdAt := by
  simp only [promptLe, promptCmp]
  split_ifs <;> omega

theorem promptLe_createdAt_desc {a b : Prompt} :
    promptLe .createdAt .desc a b ↔ b.createdAt ≤ a.createdAt := by
  simp only [promptLe, promptCmp]
  split_ifs <;> omega

theorem promptLe_title_asc {a b : Prompt} :
    promptLe .title .asc a b ↔ strLt b.title a.title = false := by
  simp only [promptLe, promptCmp]
  split_ifs with h1 h2
  · simp only [h1]
    norm_num
  · simp only [Bool.not_eq_true] at h1
    simp only [h1]
    norm_num
  · simp only [Bool.not_eq_true] at h1
    simp only [h1]
    norm_num

theorem promptLe_title_desc {a b : Prompt} :
    promptLe .title .desc a b ↔ strLt a.title b.title = false := by
  simp only [promptLe, promptCmp]
  split_ifs with h1 h2
  · simp only [strLt_asymm h1]
    norm_num
  · simp only [h2]
    norm_num
  · simp only [Bool.not_eq_true] at h2
    simp only [h2]
    norm_num

theorem promptLe_total (sortKey : SortKey) (sortOrder : SortOrder) :
    ∀ a b : Prompt, promptLe sortKey sortOrder a b ∨ promptLe sortKey sortOrder b a := by
  intro a b
  cases sortKey <;> cases sortOrder
  · rw [promptLe_createdAt_asc, promptLe_createdAt_asc]
    exact Nat.le_total _ _
  · rw [promptLe_createdAt_desc, promptLe_createdAt_desc]
    exact Nat.le_total _ _
  · rw [promptLe_title_asc, promptLe_title_asc]
    cases hx : strLt a.title b.title with
    | false => right; rfl
    | true => left; exact strLt_asymm hx
  · rw [promptLe_title_desc, promptLe_title_desc]
    cases hx : strLt a.title b.title with
    | false => left; rfl
    | true => right; exact strLt_asymm hx

theorem strLt_not_gt_trans {a b c : List Char}
    (hba : strLt b a = false) (hcb : strLt c b = false) : strLt c a = false := by
  cases hca : strLt c a with
  | false => rfl
  | true =>
    exfalso
    rcases strLt_trichot a b with hab | hab | hab
    · have hcb2 := strLt_trans hca hab
      rw [hcb2] at hcb
      exact Bool.false_ne_true hcb.symm
    · rw [hab] at hba
      exact Bool.false_ne_true hba.symm
    · subst hab
      rw [hca] at hcb
      exact Bool.false_ne_true hcb.symm

theorem promptLe_trans (sortKey : SortKey) (sortOrder : SortOrder) :
    ∀ a b c : Prompt, promptLe sortKey sortOrder a b →
      promptLe sortKey sortOrder b c → promptLe sortKey sortOrder a c := by
  intro a b c hab hbc
  cases sortKey <;> cases sortOrder
  · rw [promptLe_createdAt_asc] at hab hbc ⊢
    omega
  · rw [promptLe_createdAt_desc] at hab hbc ⊢
    omega
  · rw [promptLe_title_asc] at hab hbc ⊢
    exact strLt_not_gt_trans hab hbc
  · rw [promptLe_title_desc] at hab hbc ⊢
    exact strLt_not_gt_trans hbc hab

/-- The history view list is sorted with respect to the code's comparator. -/
theorem sorted_filteredAndSorted (l : List Prompt) (term : List Char)
    (sortKey : SortKey) (sortOrder : SortOrder) :
    (filteredAndSortedPrompts l term sortKey sortOrder).Sorted
      (promptLe sortKey sortOrder) := by
  haveI : IsTotal Prompt (promptLe sortKey sortOrder) := ⟨promptLe_total sortKey sortOrder⟩
  haveI : IsTrans Prompt (promptLe sortKey sortOrder) := ⟨promptLe_trans sortKey sortOrder⟩
  exact List.sorted_insertionSort _ _

theorem strIncludes_iff {hay needle : List Char} :
    strIncludes hay needle = true ↔ needle <:+: hay := by
  induction hay with
  | nil =>
    simp only [strIncludes, List.isEmpty_iff, List.infix_nil]
  | cons c t ih =>
    simp only [strIncludes, Bool.or_eq_true, List.isPrefixOf_iff_prefix, ih,
      List.infix_cons_iff]

/-- **C6** (counterexample): `handleDeletePrompt` filters on the id, so with
two distinct records sharing an id (ids are `Date.now().toString()`, so two
records created in the same millisecond collide) it removes both, not
"exactly the one record". -/
theorem handleDeletePrompt_cex :
    [dupA, dupB].length = 2 ∧ dupA.id = dupB.id ∧ dupA ≠ dupB ∧
    (handleDeletePrompt [dupA, dupB] "7".data).length = 0 := by decide

/-- **C6** (amended): deleting removes exactly the records bearing the given
id — the one such record when ids are unique — and leaves the order and
content of all other records unchanged; deleting an id no record bears is a
no-op. -/
theorem handleDeletePrompt_spec :
    (∀ (l1 l2 : List Prompt) (r : Prompt) (id : List Char),
        r.id = id → (∀ q ∈ l1, q.id ≠ id) → (∀ q ∈ l2, q.id ≠ id) →
        handleDeletePrompt (l1 ++ r :: l2) id = l1 ++ l2) ∧
    (∀ (l : List Prompt) (id : List Char),
        (∀ q ∈ l, q.id ≠ id) → handleDeletePrompt l id = l) := by
  constructor
  · intro l1 l2 r id hr h1 h2
    simp only [handleDeletePrompt, List.filter_append, List.filter_cons]
    rw [if_neg (by simp [hr])]
    congr 1
    · exact List.filter_eq_self.mpr fun q hq => by simpa using h1 q hq
    · exact List.filter_eq_self.mpr fun q hq => by simpa using h2 q hq
  · intro l id h
    exact List.filter_eq_self.mpr fun q hq => by simpa using h q hq

/-- Witness for `handleDeletePrompt_spec`: deleting the middle record of a
three-record history, and deleting an absent id. -/
theorem handleDeletePrompt_spec_witness :
    (promptB.id = "2".data ∧
     (∀ q ∈ [promptA], q.id ≠ "2".data) ∧
     (∀ q ∈ [promptC], q.id ≠ "2".data) ∧
     handleDeletePrompt ([promptA] ++ promptB :: [promptC]) "2".data
       = [promptA] ++ [promptC]) ∧
    ((∀ q ∈ [promptA, promptC], q.id ≠ "9".data) ∧
     handleDeletePrompt [promptA, promptC] "9".data = [promptA, promptC]) :=
  ⟨⟨rfl, by decide, by decide,
    handleDeletePrompt_spec.1 [promptA] [promptC] promptB "2".data rfl
      (by decide) (by decide)⟩,
   ⟨by decide, handleDeletePrompt_spec.2 [promptA, promptC] "9".data (by decide)⟩⟩

/-- **C7**: the history view keeps exactly the records whose title or body
contains the search string as a case-insensitive substring, and a search
string contained in no record's title or body yields the empty list. -/
theorem history_filter_spec :
    (∀ (l : List Prompt) (term : List Char) (sortKey : SortKey)
        (sortOrder : SortOrder) (p : Prompt),
      p ∈ filteredAndSortedPrompts l term sortKey sortOrder ↔
        p ∈ l ∧ (jsToLower term <:+: jsToLower p.title ∨
                 jsToLower term <:+: jsToLower p.text)) ∧
    (∀ (l : List Prompt) (term : List Char) (sortKey : SortKey)
        (sortOrder : SortOrder),
      (∀ p ∈ l, ¬ (jsToLower term <:+: jsToLower p.title ∨
                   jsToLower term <:+: jsToLower p.text)) →
      filteredAndSortedPrompts l term sortKey sortOrder = []) := by
  constructor
  · intro l term sortKey sortOrder p
    unfold filteredAndSortedPrompts
    rw [List.mem_insertionSort, List.mem_filter]
    apply and_congr_right'
    simp only [matchesSearch, Bool.or_eq_true, strIncludes_iff]
  · intro l term sortKey sortOrder h
    unfold filteredAndSortedPrompts
    rw [List.filter_eq_nil_iff.mpr]
    · rfl
    · intro p hp
      simpa only [matchesSearch, Bool.or_eq_true, strIncludes_iff] using h p hp

/-- Witness for `history_filter_spec`: a body-only match is kept, and an
absent search string yields the empty list. -/
theorem history_filter_spec_witness :
    (promptBodyMatch ∈
      filteredAndSortedPrompts [promptBodyMatch] "beta".data .createdAt .desc) ∧
    ((∀ p ∈ [promptA, promptB],
        ¬ (jsToLower "zzz".data <:+: jsToLower p.title ∨
           jsToLower "zzz".data <:+: jsToLower p.text)) ∧
     filteredAndSortedPrompts [promptA, promptB] "zzz".data .createdAt .desc = []) :=
  ⟨(history_filter_spec.1 [promptBodyMatch] "beta".data .createdAt .desc
      promptBodyMatch).mpr ⟨by decide, by decide⟩,
   ⟨by decide,
    history_filter_spec.2 [promptA, promptB] "zzz".data .createdAt .desc (by decide)⟩⟩

/-- **C8**: the history query returns a permutation of the filtered records,
sorted by the chosen key and direction — numerically for creation time,
lexicographically (locale-naive) for title — with comparator ties kept in
stable input order; sorting records with `createdAt` 100 and 200 ascending
yields `[100, 200]` and descending `[200, 100]`. -/
theorem history_sort_spec :
    (∀ (l : List Prompt) (term : List Char) (sortKey : SortKey)
        (sortOrder : SortOrder),
      (filteredAndSortedPrompts l term sortKey sortOrder).Perm
        (l.filter (matchesSearch term))) ∧
    (∀ (l : List Prompt) (term : List Char),
      (filteredAndSortedPrompts l term .createdAt .asc).Sorted
        (fun a b => a.createdAt ≤ b.createdAt)) ∧
    (∀ (l : List Prompt) (term : List Char),
      (filteredAndSortedPrompts l term .createdAt .desc).Sorted
        (fun a b => b.createdAt ≤ a.createdAt)) ∧
    (∀ (l : List Prompt) (term : List Char),
      (filteredAndSortedPrompts l term .title .asc).Sorted
        (fun a b => strLt b.title a.title = false)) ∧
    (∀ (l : List Prompt) (term : List Char),
      (filteredAndSortedPrompts l term .title .desc).Sorted
        (fun a b => strLt a.title b.title = false)) ∧
    (∀ (l : List Prompt) (term : List Char) (sortKey : SortKey)
        (sortOrder : SortOrder) (a b : Prompt),
      promptCmp sortKey sortOrder a b = 0 →
      List.Sublist [a, b] (l.filter (matchesSearch term)) →
      List.Sublist [a, b] (filteredAndSortedPrompts l term sortKey sortOrder)) ∧
    (filteredAndSortedPrompts [promptA, promptB] [] .createdAt .asc
        = [promptA, promptB] ∧
     filteredAndSortedPrompts [promptA, promptB] [] .createdAt .desc
        = [promptB, promptA]) := by
  refine ⟨?_, ?_, ?_, ?_, ?_, ?_, ?_, ?_⟩
  · intro l term sortKey sortOrder
    exact List.perm_insertionSort _ _
  · intro l term
    exact (sorted_filteredAndSorted l term .createdAt .asc).imp
      fun h => promptLe_createdAt_asc.mp h
  · intro l term
    exact (sorted_filteredAndSorted l term .createdAt .desc).imp
      fun h => promptLe_createdAt_desc.mp h
  · intro l term
    exact (sorted_filteredAndSorted l term .title .asc).imp
      fun h => promptLe_title_asc.mp h
  · intro l term
    exact (sorted_filteredAndSorted l term .title .desc).imp
      fun h => promptLe_title_desc.mp h
  · intro l term sortKey sortOrder a b hcmp hsub
    have hle : promptLe sortKey sortOrder a b := by
      unfold promptLe
      omega
    exact List.pair_sublist_insertionSort hle hsub
  · decide
  · decide

/-- Witness for `history_sort_spec`: two records tied on `createdAt` stay in
input order. -/
theorem history_sort_spec_witness :
    promptCmp .createdAt .asc promptA promptA2 = 0 ∧
    List.Sublist [promptA, promptA2]
      (List.filter (matchesSearch []) [promptA, promptA2]) ∧
    List.Sublist [promptA, promptA2]
      (filteredAndSortedPrompts [promptA, promptA2] [] .createdAt .asc) := by
  have hsub : List.Sublist [promptA, promptA2]
      (List.filter (matchesSearch []) [promptA, promptA2]) := by decide
  exact ⟨by decide, hsub,
    history_sort_spec.2.2.2.2.2.1 [promptA, promptA2] [] .createdAt .asc
      promptA promptA2 (by decide) hsub⟩

